import Mathlib

/-!
Verification of the symptom-matching and diagnosis core of the
Medical-ChatBot repository (`src/medical_chatbot.py`), shallowly embedded
in Lean 4.  Strings are Lean `String`s, with Python string primitives
(`strip`, `lower`, `split`, substring `in`) re-implemented by structural
recursion over the character list so that every definition is
kernel-computable; Python lists are Lean `List`s; floating-point
probabilities are modelled as rationals; the scikit-learn model is
abstracted as a function producing either a probability vector or an
exception message (`Except`).
-/

namespace MedBot

/-- Python `needle in hay` prefix step: `pfxAt n h` is true when `n` is an
initial segment of `h` (char lists). -/
def pfxAt : List Char → List Char → Bool
  | [], _ => true
  | _ :: _, [] => false
  | a :: as, b :: bs => a == b && pfxAt as bs

/-- Python substring test `needle in hay` on char lists: some suffix of
`hay` starts with `needle`.  The empty needle matches everything, as in
Python. -/
def subAt (needle : List Char) : List Char → Bool
  | [] => needle == []
  | b :: bs => pfxAt needle (b :: bs) || subAt needle bs

/-- Python `needle in hay` for strings. -/
def strIn (needle hay : String) : Bool :=
  subAt needle.data hay.data

/-- ASCII lower-casing of one character, as Python `str.lower` acts on the
ASCII letters occurring in this data set. -/
def lowerChar (c : Char) : Char :=
  if 65 ≤ c.toNat ∧ c.toNat ≤ 90 then Char.ofNat (c.toNat + 32) else c

/-- Python `s.lower()`. -/
def pyLower (s : String) : String :=
  String.mk (s.data.map lowerChar)

/-- Python `s.strip()`: drop leading and trailing whitespace. -/
def pyStrip (s : String) : String :=
  String.mk (((s.data.dropWhile Char.isWhitespace).reverse.dropWhile
      Char.isWhitespace).reverse)

/-- Cleaning applied to each token in `validate_symptoms`:
`str(symptom).strip().lower()`. -/
def cleanToken (s : String) : String :=
  pyLower (pyStrip s)

/-- Helper for Python `s.split()`: scan the characters, `acc` holding the
current word reversed; whitespace closes the current word, and empty
pieces are discarded. -/
def wordsAux : List Char → List Char → List String
  | [], acc => if acc.isEmpty then [] else [String.mk acc.reverse]
  | c :: rest, acc =>
    if c.isWhitespace then
      if acc.isEmpty then wordsAux rest []
      else String.mk acc.reverse :: wordsAux rest []
    else wordsAux rest (c :: acc)

/-- Python `a.split()`: the maximal whitespace-free runs of `a`. -/
def pyWords (a : String) : List String :=
  wordsAux a.data []

/-- `MedicalDiagnosisChatbot._similarity`: token-set Jaccard similarity of
the whitespace-split word sets of `a` and `b`; `0` when either word set is
empty.  (The Python code splits on whitespace only: `a.split()`.) -/
def similarity (a b : String) : ℚ :=
  let aw := (pyWords a).dedup
  let bw := (pyWords b).dedup
  if aw.isEmpty || bw.isEmpty then 0
  else ((aw.filter (fun w => w ∈ bw)).length : ℚ) /
       ((aw ++ bw.filter (fun w => w ∉ aw)).length : ℚ)

/-- The comparison `self._similarity(symptom_clean, known_symptom) > 0.6`
from `validate_symptoms`, in cross-multiplied integer form so that it is
kernel-computable; `simGT_iff_similarity` proves it agrees with the
rational-valued `similarity`. -/
def simGT (a b : String) : Bool :=
  let aw := (pyWords a).dedup
  let bw := (pyWords b).dedup
  if aw.isEmpty || bw.isEmpty then false
  else 5 * (aw.filter (fun w => w ∈ bw)).length >
       3 * (aw ++ bw.filter (fun w => w ∉ aw)).length

/-- The fixed `symptom_mappings` alias table from `validate_symptoms`. -/
def symptom_mappings : List (String × List String) :=
  [("fever", ["high_fever", "mild_fever"]),
   ("cold", ["cold_hands_and_feets"]),
   ("sweating", ["sweating"]),
   ("trembling", ["trembling"]),
   ("headache", ["headache"]),
   ("nausea", ["nausea"]),
   ("vomiting", ["vomiting"]),
   ("diarrhea", ["diarrhoea"]),
   ("diarrhoea", ["diarrhoea"]),
   ("constipation", ["constipation"]),
   ("cough", ["cough"]),
   ("sneezing", ["continuous_sneezing"]),
   ("rash", ["skin_rash"]),
   ("fatigue", ["fatigue"]),
   ("weakness", ["muscle_weakness", "weakness_in_limbs"]),
   ("pain", ["joint_pain", "stomach_pain", "back_pain", "chest_pain"]),
   ("breathing", ["breathlessness"]),
   ("dizziness", ["dizziness"]),
   ("anxiety", ["anxiety"]),
   ("depression", ["depression"])]

/-- Alias lookup step of `validate_symptoms`: if the cleaned token is a key
of `symptom_mappings`, return the first mapped symptom present in the
vocabulary, if any. -/
def aliasMatch (vocab : List String) (c : String) : Option String :=
  match symptom_mappings.lookup c with
  | none => none
  | some targets => targets.find? (fun t => t ∈ vocab)

/-- The fuzzy-match acceptance condition of `validate_symptoms`: the
cleaned token is a substring of the known symptom, or conversely, or their
similarity exceeds 0.6. -/
def fuzzyCond (c known : String) : Bool :=
  strIn c known || strIn known c || simGT c known

/-- Fuzzy-match step of `validate_symptoms`: the first vocabulary entry
satisfying `fuzzyCond`. -/
def fuzzyMatch (vocab : List String) (c : String) : Option String :=
  vocab.find? (fuzzyCond c)

/-- One iteration of the loop in `validate_symptoms`: clean the token,
then try exact match, alias match, fuzzy match in that order; `none`
means the token is reported invalid. -/
def matchToken (vocab : List String) (symptom : String) : Option String :=
  let c := cleanToken symptom
  if c ∈ vocab then some c
  else
    match aliasMatch vocab c with
    | some m => some m
    | none => fuzzyMatch vocab c

/-- `MedicalDiagnosisChatbot.validate_symptoms`: partition the input
tokens into the matched vocabulary entries (in input order) and the
unmatched raw tokens. -/
def validate_symptoms (vocab : List String) : List String → List String × List String
  | [] => ([], [])
  | s :: rest =>
    let r := validate_symptoms vocab rest
    match matchToken vocab s with
    | some m => (m :: r.1, r.2)
    | none => (r.1, s :: r.2)

/-- The generic treatment advisory string used when the treatment
dictionary has no entry for the top disease. -/
def genericTreatment : String :=
  "Consult a medical professional for proper treatment."

/-- Python `self.treatment_dict.get(key, default)`, over an association
list. -/
def dictGet (d : List (String × String)) (key default : String) : String :=
  match d.lookup key with
  | some v => v
  | none => default

/-- Insert one disease–probability pair into a list already sorted by
descending probability, after the entries with probability ≥ its own.
Folding this over the list yields the same stable descending order that
Python `list.sort(key=lambda x: x[1], reverse=True)` produces. -/
def insertDesc (x : String × ℚ) : List (String × ℚ) → List (String × ℚ)
  | [] => [x]
  | y :: ys => if y.2 ≤ x.2 then x :: y :: ys else y :: insertDesc x ys

/-- Stable sort by descending probability:
`disease_probs.sort(key=lambda x: x[1], reverse=True)`. -/
def sortDesc : List (String × ℚ) → List (String × ℚ)
  | [] => []
  | x :: xs => insertDesc x (sortDesc xs)

/-- The state of a `MedicalDiagnosisChatbot` as far as `diagnose` reads
it: the `is_trained` flag, the feature vocabulary `all_symptoms`, the
treatment dictionary, the trained class list, and the model itself,
abstracted as the map `predict_proba` from an input vector to either a
probability vector (aligned with `disease_classes`) or an exception
message. -/
structure MedicalDiagnosisChatbot where
  is_trained : Bool
  all_symptoms : List String
  treatment_dict : List (String × String)
  disease_classes : List String
  predict_proba : List ℕ → Except String (List ℚ)

/-- The input vector built by `diagnose`:
`[1 if symptom in valid_symptoms else 0 for symptom in self.all_symptoms]`. -/
def inputVector (vocab valid : List String) : List ℕ :=
  vocab.map (fun s => if s ∈ valid then 1 else 0)

/-- The result dictionary of `diagnose`, with one constructor per shape
the Python dict can take: the two typed error dicts, the generic
prediction-error dict produced by the `except` clause, and the success
dict. -/
inductive DiagnoseResult where
  | errorNotTrained : DiagnoseResult
  | errorNoValidSymptoms (invalid_symptoms : List String) : DiagnoseResult
  | errorPrediction (msg : String) : DiagnoseResult
  | success (top_predictions : List (String × ℚ)) (treatment : String)
      (valid_symptoms invalid_symptoms : List String)
      (confidence : ℚ) : DiagnoseResult
  deriving DecidableEq

/-- The body of the `try` block of `diagnose` (given the validated
symptom lists): run the model, zip classes with probabilities, sort
descending, take the top 3, and look up the treatment for the top
disease; a model exception, or an empty prediction list (whose
`top_predictions[0]` raises `IndexError` inside the `try`), becomes the
generic prediction-error dict. -/
def predictPhase (bot : MedicalDiagnosisChatbot)
    (valid invalid : List String) : DiagnoseResult :=
  match bot.predict_proba (inputVector bot.all_symptoms valid) with
  | Except.error e => DiagnoseResult.errorPrediction ("Prediction error: " ++ e)
  | Except.ok probabilities =>
    let disease_probs := bot.disease_classes.zip probabilities
    let top_predictions := (sortDesc disease_probs).take 3
    match top_predictions with
    | [] =>
      DiagnoseResult.errorPrediction "Prediction error: list index out of range"
    | top :: _ =>
      DiagnoseResult.success top_predictions
        (dictGet bot.treatment_dict (pyLower top.1) genericTreatment)
        valid invalid top.2

/-- `MedicalDiagnosisChatbot.diagnose`: refuse when untrained, validate
the symptoms, refuse when no symptom validated, otherwise predict. -/
def diagnose (bot : MedicalDiagnosisChatbot) (symptoms : List String) :
    DiagnoseResult :=
  if bot.is_trained = false then DiagnoseResult.errorNotTrained
  else
    let r := validate_symptoms bot.all_symptoms symptoms
    if r.1.isEmpty then DiagnoseResult.errorNoValidSymptoms r.2
    else predictPhase bot r.1 r.2

/-- Data-loading filter of `load_data`: rows whose disease label occurs
fewer than 2 times in the label column are dropped.  Only the label
column matters for the claims, so rows are represented by their labels. -/
def filterLabels (labels : List String) : List String :=
  labels.filter (fun d => ¬ labels.count d < 2)

/-! ### Shared lemmas -/

/-- `simGT` is a faithful rendering of the source comparison
`_similarity(a, b) > 0.6`. -/
theorem simGT_iff (a b : String) :
    simGT a b = true ↔ similarity a b > 3 / 5 := by
  unfold simGT similarity
  by_cases h : ((pyWords a).dedup.isEmpty || (pyWords b).dedup.isEmpty) = true
  · simp only [h, if_pos, if_true]
    norm_num
  · simp only [h, if_neg, Bool.not_eq_true, if_false]
    rw [Bool.or_eq_true, not_or] at h
    have haw : (pyWords a).dedup ≠ [] := by
      intro hnil
      exact h.1 (by simp [hnil])
    have hpos : 0 < ((pyWords a).dedup ++
        (pyWords b).dedup.filter (fun w => w ∉ (pyWords a).dedup)).length := by
      rw [List.length_append]
      have := List.length_pos.mpr haw
      omega
    have hposq : (0 : ℚ) <
        (((pyWords a).dedup ++
          (pyWords b).dedup.filter (fun w => w ∉ (pyWords a).dedup)).length : ℚ) := by
      exact_mod_cast hpos
    rw [decide_eq_true_eq]
    rw [gt_iff_lt, gt_iff_lt, div_lt_div_iff₀ (by norm_num) hposq]
    constructor
    · intro hgt
      have h1 : (3 : ℚ) * (((pyWords a).dedup ++
          (pyWords b).dedup.filter (fun w => w ∉ (pyWords a).dedup)).length : ℚ) <
          5 * (((pyWords a).dedup.filter (fun w => w ∈ (pyWords b).dedup)).length : ℚ) := by
        exact_mod_cast hgt
      linarith
    · intro hlt
      have h1 : 3 * ((pyWords a).dedup ++
          (pyWords b).dedup.filter (fun w => w ∉ (pyWords a).dedup)).length <
          ((pyWords a).dedup.filter (fun w => w ∈ (pyWords b).dedup)).length * 5 := by
        exact_mod_cast hlt
      omega

/-- `List.find?` returns the entry at index `i` when it satisfies the
predicate and no earlier entry does. -/
theorem find?_of_first {α : Type} (p : α → Bool) :
    ∀ (l : List α) (i : ℕ) (hi : i < l.length),
      p (l.get ⟨i, hi⟩) = true →
      (∀ j (hj : j < i), p (l.get ⟨j, Nat.lt_trans hj hi⟩) = false) →
      l.find? p = some (l.get ⟨i, hi⟩)
  | [], i, hi => by simp at hi
  | a :: tl, 0, hi => by
    intro hp _
    simp only [List.get] at hp
    simp [List.find?, hp]
  | a :: tl, i + 1, hi => by
    intro hp hj
    have ha : p a = false := hj 0 (Nat.succ_pos i)
    simp only [List.find?, ha]
    exact find?_of_first p tl i (Nat.lt_of_succ_lt_succ hi) hp
      (fun j hji => hj (j + 1) (Nat.succ_lt_succ hji))

/-- Unfolding lemma: `validate_symptoms` on the empty token list. -/
theorem validate_nil (vocab : List String) :
    validate_symptoms vocab [] = ([], []) := rfl

/-- Unfolding lemma: `validate_symptoms` on a matched head token. -/
theorem validate_cons_some (vocab : List String) (s : String)
    (rest : List String) (m : String) (hm : matchToken vocab s = some m) :
    validate_symptoms vocab (s :: rest) =
      (m :: (validate_symptoms vocab rest).1,
       (validate_symptoms vocab rest).2) := by
  rw [validate_symptoms.eq_2, hm]

/-- Unfolding lemma: `validate_symptoms` on an unmatched head token. -/
theorem validate_cons_none (vocab : List String) (s : String)
    (rest : List String) (hm : matchToken vocab s = none) :
    validate_symptoms vocab (s :: rest) =
      ((validate_symptoms vocab rest).1,
       s :: (validate_symptoms vocab rest).2) := by
  rw [validate_symptoms.eq_2, hm]

/-- Everything `matchToken` accepts is a vocabulary entry. -/
theorem matchToken_mem (vocab : List String) (s m : String)
    (h : matchToken vocab s = some m) : m ∈ vocab := by
  unfold matchToken at h
  by_cases hc : cleanToken s ∈ vocab
  · simp only [hc, if_pos, if_true, Option.some.injEq] at h
    exact h ▸ hc
  · simp only [hc, if_neg, if_false] at h
    rcases ha : aliasMatch vocab (cleanToken s) with _ | t
    · rw [ha] at h
      exact List.mem_of_find?_eq_some h
    · rw [ha] at h
      unfold aliasMatch at ha
      rcases hl : symptom_mappings.lookup (cleanToken s) with _ | targets
      · rw [hl] at ha; exact absurd ha (by simp)
      · rw [hl] at ha
        have := List.find?_some ha
        rw [decide_eq_true_eq] at this
        cases h
        exact this

/-- `insertDesc` inserts its element without losing or adding any other. -/
theorem insertDesc_perm (x : String × ℚ) (l : List (String × ℚ)) :
    (insertDesc x l).Perm (x :: l) := by
  induction l with
  | nil => simp [insertDesc]
  | cons y ys ih =>
    unfold insertDesc
    by_cases h : y.2 ≤ x.2
    · simp [h]
    · simp only [h, if_neg, if_false]
      exact (List.Perm.cons y ih).trans (List.Perm.swap x y ys)

/-- `sortDesc` permutes its input. -/
theorem sortDesc_perm (l : List (String × ℚ)) : (sortDesc l).Perm l := by
  induction l with
  | nil => simp [sortDesc]
  | cons x xs ih =>
    exact (insertDesc_perm x (sortDesc xs)).trans (List.Perm.cons x ih)

/-- `insertDesc` preserves descending order. -/
theorem insertDesc_pairwise (x : String × ℚ) (l : List (String × ℚ))
    (h : l.Pairwise (fun p q => q.2 ≤ p.2)) :
    (insertDesc x l).Pairwise (fun p q => q.2 ≤ p.2) := by
  induction l with
  | nil => simp [insertDesc]
  | cons y ys ih =>
    rw [List.pairwise_cons] at h
    unfold insertDesc
    by_cases hle : y.2 ≤ x.2
    · simp only [hle, if_pos, if_true]
      rw [List.pairwise_cons]
      refine ⟨?_, List.pairwise_cons.mpr h⟩
      intro q hq
      rcases List.mem_cons.mp hq with hq1 | hq1
      · exact hq1 ▸ hle
      · exact le_trans (h.1 q hq1) hle
    · simp only [hle, if_neg, if_false]
      rw [List.pairwise_cons]
      refine ⟨?_, ih h.2⟩
      intro q hq
      have hmem := (insertDesc_perm x ys).mem_iff.mp hq
      rcases List.mem_cons.mp hmem with hq1 | hq1
      · subst hq1
        exact le_of_not_le hle
      · exact h.1 q hq1

/-- `sortDesc` sorts by descending probability. -/
theorem sortDesc_pairwise (l : List (String × ℚ)) :
    (sortDesc l).Pairwise (fun p q => q.2 ≤ p.2) := by
  induction l with
  | nil => simp [sortDesc]
  | cons x xs ih => exact insertDesc_pairwise x (sortDesc xs) ih

/-! ### Claim theorems -/

/-- C5: `validate_symptoms` partitions its input: the lengths of `valid`
and `invalid` sum to the number of input tokens (each token contributes
exactly one entry), every element of `valid` is a vocabulary member, and
every element of `invalid` is an input token. -/
theorem c5_validate_partitions (vocab symptoms : List String) :
    (validate_symptoms vocab symptoms).1.length +
      (validate_symptoms vocab symptoms).2.length = symptoms.length ∧
    (∀ x ∈ (validate_symptoms vocab symptoms).1, x ∈ vocab) ∧
    (∀ x ∈ (validate_symptoms vocab symptoms).2, x ∈ symptoms) := by
  induction symptoms with
  | nil => simp [validate_nil]
  | cons s rest ih =>
    rcases hm : matchToken vocab s with _ | m
    · rw [validate_cons_none vocab s rest hm]
      refine ⟨?_, ih.2.1, ?_⟩
      · have h1 := ih.1
        simp only [List.length_cons]
        omega
      intro x hx
      rcases List.mem_cons.mp hx with hx1 | hx1
      · exact hx1 ▸ List.mem_cons_self s rest
      · exact List.mem_cons_of_mem s (ih.2.2 x hx1)
    · rw [validate_cons_some vocab s rest m hm]
      refine ⟨?_, ?_, ?_⟩
      · have h1 := ih.1
        simp only [List.length_cons]
        omega
      · intro x hx
        rcases List.mem_cons.mp hx with hx1 | hx1
        · exact hx1 ▸ matchToken_mem vocab s m hm
        · exact ih.2.1 x hx1
      · intro x hx
        exact List.mem_cons_of_mem s (ih.2.2 x hx)

/-- C4: a token whose trimmed, lower-cased form is a vocabulary entry is
accepted as that entry, unchanged, ahead of alias and fuzzy matching (no
assumption on those stages is needed). -/
theorem c4_exact_match (vocab : List String) (t : String) (rest : List String)
    (h : cleanToken t ∈ vocab) :
    validate_symptoms vocab (t :: rest) =
      (cleanToken t :: (validate_symptoms vocab rest).1,
       (validate_symptoms vocab rest).2) := by
  refine validate_cons_some vocab t rest (cleanToken t) ?_
  unfold matchToken
  rw [if_pos h]

/-- C4 witness: `" Fever"` cleans to `"fever"`, an exact vocabulary entry,
and is accepted as-is even though the alias table maps `"fever"` to
`"high_fever"`, which is also in the vocabulary. -/
theorem c4_witness :
    cleanToken " Fever" ∈ ["fever", "high_fever"] ∧
    validate_symptoms ["fever", "high_fever"] [" Fever"] = (["fever"], []) :=
  ⟨by decide,
   (c4_exact_match ["fever", "high_fever"] " Fever" [] (by decide)).trans
     (by decide)⟩

/-- A chatbot state used for concrete evaluations: trained, three-symptom
vocabulary, one treatment entry, three classes, model returning fixed
probabilities. -/
def botA : MedicalDiagnosisChatbot :=
  ⟨true, ["high_fever", "headache", "skin_rash"],
   [("measles", "See a doctor promptly.")],
   ["Flu", "Measles", "Cold"],
   fun _ => Except.ok [3, 7, 1]⟩

/-- C1 counterexample: on the empty input list (explicitly included in the
claim), the trained chatbot returns the no-valid-symptoms error whose
`invalid_symptoms` list is empty, contradicting the claimed non-empty
`invalid_symptoms`. -/
theorem c1_counterexample :
    botA.is_trained = true ∧
    diagnose botA [] = DiagnoseResult.errorNoValidSymptoms [] := by
  constructor
  · rfl
  · decide

/-- C1 (amended): for a trained chatbot, an input whose every token fails
all three matching strategies (exact, alias, fuzzy) yields the
no-valid-symptoms error carrying exactly the input tokens as
`invalid_symptoms` (so non-empty whenever the input is non-empty, and
empty for the empty input), with no predictions and no treatment; the
result does not depend on the model, so no prediction is attempted. -/
theorem c1_all_invalid (vocab : List String) (td : List (String × String))
    (cls : List String) (g : List ℕ → Except String (List ℚ))
    (symptoms : List String)
    (hall : ∀ t ∈ symptoms, cleanToken t ∉ vocab ∧
      aliasMatch vocab (cleanToken t) = none ∧
      fuzzyMatch vocab (cleanToken t) = none) :
    diagnose ⟨true, vocab, td, cls, g⟩ symptoms =
      DiagnoseResult.errorNoValidSymptoms symptoms := by
  have hv : validate_symptoms vocab symptoms = ([], symptoms) := by
    induction symptoms with
    | nil => rfl
    | cons s rest ih =>
      have hs := hall s (List.mem_cons_self s rest)
      have hm : matchToken vocab s = none := by
        unfold matchToken
        rw [if_neg hs.1, hs.2.1]
        exact hs.2.2
      rw [validate_cons_none vocab s rest hm,
        ih (fun t ht => hall t (List.mem_cons_of_mem s ht))]
  unfold diagnose
  simp [hv]

/-- C1 witness: concrete trained chatbot and the unmatched token
`"xyz"`. -/
theorem c1_witness :
    (∀ t ∈ ["xyz"],
      cleanToken t ∉ ["high_fever", "headache", "skin_rash"] ∧
      aliasMatch ["high_fever", "headache", "skin_rash"] (cleanToken t) = none ∧
      fuzzyMatch ["high_fever", "headache", "skin_rash"] (cleanToken t) = none) ∧
    diagnose ⟨true, ["high_fever", "headache", "skin_rash"],
        [("measles", "See a doctor promptly.")], ["Flu", "Measles", "Cold"],
        fun _ => Except.ok [3, 7, 1]⟩ ["xyz"] =
      DiagnoseResult.errorNoValidSymptoms ["xyz"] :=
  ⟨by decide,
   c1_all_invalid ["high_fever", "headache", "skin_rash"]
     [("measles", "See a doctor promptly.")] ["Flu", "Measles", "Cold"]
     (fun _ => Except.ok [3, 7, 1]) ["xyz"] (by decide)⟩

/-- C3 counterexample: the token `"fever"` has the alias entry
`"fever" → ["high_fever", "mild_fever"]` and `"high_fever"` is in the
vocabulary, yet when `"fever"` itself is also a vocabulary entry the
matcher returns the raw token `"fever"`, not the alias target — exact
matching runs first, so the claim as stated (with no exact-match proviso)
is false. -/
theorem c3_counterexample :
    symptom_mappings.lookup "fever" = some ["high_fever", "mild_fever"] ∧
    "high_fever" ∈ ["fever", "high_fever"] ∧
    validate_symptoms ["fever", "high_fever"] ["fever"] = (["fever"], []) := by
  decide

/-- C3 (amended): for a token whose cleaned form is NOT itself a
vocabulary entry but has an alias-table entry, the matcher appends to
`valid` the first alias target present in the vocabulary, never the raw
token. -/
theorem c3_alias_first (vocab : List String) (t : String) (rest : List String)
    (targets : List String) (i : ℕ) (hi : i < targets.length)
    (hne : cleanToken t ∉ vocab)
    (hmap : symptom_mappings.lookup (cleanToken t) = some targets)
    (hmem : targets.get ⟨i, hi⟩ ∈ vocab)
    (hfirst : ∀ j (hj : j < i), targets.get ⟨j, Nat.lt_trans hj hi⟩ ∉ vocab) :
    validate_symptoms vocab (t :: rest) =
      (targets.get ⟨i, hi⟩ :: (validate_symptoms vocab rest).1,
       (validate_symptoms vocab rest).2) := by
  refine validate_cons_some vocab t rest (targets.get ⟨i, hi⟩) ?_
  unfold matchToken
  rw [if_neg hne]
  have ha : aliasMatch vocab (cleanToken t) = some (targets.get ⟨i, hi⟩) := by
    unfold aliasMatch
    rw [hmap]
    exact find?_of_first (fun x => decide (x ∈ vocab)) targets i hi
      (decide_eq_true hmem)
      (fun j hj => decide_eq_false (hfirst j hj))
  rw [ha]

/-- C3 witness: the spec's own example — input `["fever", "headache"]`
with vocabulary `["high_fever", "headache"]` yields
`valid = ["high_fever", "headache"]`, `invalid = []`. -/
theorem c3_witness :
    cleanToken "fever" ∉ ["high_fever", "headache"] ∧
    validate_symptoms ["high_fever", "headache"] ["fever", "headache"] =
      (["high_fever", "headache"], []) :=
  ⟨by decide,
   (c3_alias_first ["high_fever", "headache"] "fever" ["headache"]
      ["high_fever", "mild_fever"] 0 (Nat.zero_lt_succ 1) (by decide)
      (by decide) (by decide)
      (fun j hj => absurd hj (Nat.not_lt_zero j))).trans
     (by decide)⟩

/-- Modelled from the spec: the spec describes the fuzzy Jaccard
similarity as "splitting on whitespace/underscore"; this splits a string
on whitespace AND underscore (the code's `_similarity` splits on
whitespace only, via `a.split()`). -/
def specWordsAux : List Char → List Char → List String
  | [], acc => if acc.isEmpty then [] else [String.mk acc.reverse]
  | c :: rest, acc =>
    if c.isWhitespace || c == '_' then
      if acc.isEmpty then specWordsAux rest []
      else String.mk acc.reverse :: specWordsAux rest []
    else specWordsAux rest (c :: acc)

/-- Modelled from the spec: word list of a string when splitting on
whitespace and underscore. -/
def specWords (a : String) : List String :=
  specWordsAux a.data []

/-- Modelled from the spec: token-set Jaccard similarity with token sets
obtained by splitting on whitespace and underscore, as the spec words the
fuzzy-match rule. -/
def specSimilarity (a b : String) : ℚ :=
  let aw := (specWords a).dedup
  let bw := (specWords b).dedup
  if aw.isEmpty || bw.isEmpty then 0
  else ((aw.filter (fun w => w ∈ bw)).length : ℚ) /
       ((aw ++ bw.filter (fun w => w ∉ aw)).length : ℚ)

/-- C2 counterexample: for the token `"pain stomach"` and vocabulary
`["stomach_pain"]`, neither substring test applies and the spec's
underscore-splitting Jaccard similarity is 1 > 0.6, so under the claim the
matcher would accept `"stomach_pain"`; the code splits on whitespace only,
computes similarity 0, and reports the token invalid. -/
theorem c2_counterexample :
    strIn "pain stomach" "stomach_pain" = false ∧
    strIn "stomach_pain" "pain stomach" = false ∧
    specSimilarity "pain stomach" "stomach_pain" > 3 / 5 ∧
    validate_symptoms ["stomach_pain"] ["pain stomach"] =
      ([], ["pain stomach"]) := by
  refine ⟨by decide, by decide, ?_, by decide⟩
  have h1 : (specWords "pain stomach").dedup = ["pain", "stomach"] := by decide
  have h2 : (specWords "stomach_pain").dedup = ["stomach", "pain"] := by decide
  simp only [specSimilarity, h1, h2]
  norm_num [List.filter]

/-- The fuzzy acceptance test of the source, split into the claim's three
clauses, with the similarity clause expressed through the rational-valued
`similarity`. -/
theorem fuzzyCond_iff (c k : String) :
    fuzzyCond c k = true ↔
      (strIn c k = true ∨ strIn k c = true ∨ similarity c k > 3 / 5) := by
  unfold fuzzyCond
  rw [Bool.or_eq_true, Bool.or_eq_true, simGT_iff, or_assoc]

/-- C2 (amended): for a token failing exact and alias matching, the
matcher accepts the first vocabulary entry (in vocabulary order) that is a
substring of the token, or contains the token, or has token-set Jaccard
similarity strictly greater than 0.6 — with the token sets obtained by
splitting on whitespace only, as `_similarity` does. -/
theorem c2_fuzzy_first (vocab : List String) (t : String) (rest : List String)
    (i : ℕ) (hi : i < vocab.length)
    (hne : cleanToken t ∉ vocab)
    (hal : aliasMatch vocab (cleanToken t) = none)
    (hcond : strIn (cleanToken t) (vocab.get ⟨i, hi⟩) = true ∨
      strIn (vocab.get ⟨i, hi⟩) (cleanToken t) = true ∨
      similarity (cleanToken t) (vocab.get ⟨i, hi⟩) > 3 / 5)
    (hfirst : ∀ j (hj : j < i),
      ¬ (strIn (cleanToken t) (vocab.get ⟨j, Nat.lt_trans hj hi⟩) = true ∨
         strIn (vocab.get ⟨j, Nat.lt_trans hj hi⟩) (cleanToken t) = true ∨
         similarity (cleanToken t) (vocab.get ⟨j, Nat.lt_trans hj hi⟩) > 3 / 5)) :
    validate_symptoms vocab (t :: rest) =
      (vocab.get ⟨i, hi⟩ :: (validate_symptoms vocab rest).1,
       (validate_symptoms vocab rest).2) := by
  refine validate_cons_some vocab t rest (vocab.get ⟨i, hi⟩) ?_
  unfold matchToken
  rw [if_neg hne, hal]
  exact find?_of_first (fuzzyCond (cleanToken t)) vocab i hi
    ((fuzzyCond_iff _ _).mpr hcond)
    (fun j hj => by
      rcases hb : fuzzyCond (cleanToken t) (vocab.get ⟨j, Nat.lt_trans hj hi⟩) with _ | _
      · rfl
      · exact absurd ((fuzzyCond_iff _ _).mp hb) (hfirst j hj))

/-- C2 witness: `"cough"` (whose alias target `"cough"` is absent from the
vocabulary) fuzzy-matches the second vocabulary entry `"coughing"` by the
substring clause, the first entry `"itching"` matching no clause. -/
theorem c2_witness :
    cleanToken "cough" ∉ ["itching", "coughing"] ∧
    validate_symptoms ["itching", "coughing"] ["cough"] =
      (["coughing"], []) := by
  have hf : ∀ j (hj : j < 1),
      ¬ (strIn (cleanToken "cough")
           (["itching", "coughing"].get ⟨j, Nat.lt_trans hj Nat.one_lt_two⟩) =
           true ∨
         strIn (["itching", "coughing"].get ⟨j, Nat.lt_trans hj Nat.one_lt_two⟩)
           (cleanToken "cough") = true ∨
         similarity (cleanToken "cough")
           (["itching", "coughing"].get ⟨j, Nat.lt_trans hj Nat.one_lt_two⟩) >
           3 / 5) := by
    intro j hj
    have hj0 : j = 0 := by omega
    subst hj0
    show ¬ (strIn (cleanToken "cough") "itching" = true ∨
      strIn "itching" (cleanToken "cough") = true ∨
      similarity (cleanToken "cough") "itching" > 3 / 5)
    rintro (h | h | h)
    · exact absurd h (by decide)
    · exact absurd h (by decide)
    · exact absurd ((simGT_iff _ _).mpr h) (by decide)
  refine ⟨by decide, ?_⟩
  rw [c2_fuzzy_first ["itching", "coughing"] "cough" [] 1 Nat.one_lt_two
    (by decide) (by decide) (Or.inl (by decide)) hf]
  decide

/-- The `i`-th component of the input vector is 1 exactly when the `i`-th
vocabulary symptom is in `valid`. -/
theorem inputVector_get (vocab valid : List String) (i : ℕ)
    (h1 : i < (inputVector vocab valid).length) (h2 : i < vocab.length) :
    (inputVector vocab valid).get ⟨i, h1⟩ =
      if vocab.get ⟨i, h2⟩ ∈ valid then 1 else 0 := by
  simp [inputVector, List.get_eq_getElem, List.getElem_map]

/-- C6: on every successful diagnosis, the validated symptom list is
`validate_symptoms`'s output, the model input is the binary vector whose
`i`-th component is 1 exactly when the `i`-th vocabulary symptom is valid,
and `top_predictions` is the 3-element (or shorter) prefix of the
class–probability pairs sorted by descending probability. -/
theorem c6_predictions (bot : MedicalDiagnosisChatbot) (symptoms : List String)
    (tp : List (String × ℚ)) (tr : String) (v inv : List String) (conf : ℚ)
    (h : diagnose bot symptoms = DiagnoseResult.success tp tr v inv conf) :
    v = (validate_symptoms bot.all_symptoms symptoms).1 ∧
    (∀ i (h1 : i < (inputVector bot.all_symptoms v).length)
       (h2 : i < bot.all_symptoms.length),
       (inputVector bot.all_symptoms v).get ⟨i, h1⟩ =
         if bot.all_symptoms.get ⟨i, h2⟩ ∈ v then 1 else 0) ∧
    (∃ probs, bot.predict_proba (inputVector bot.all_symptoms v) =
        Except.ok probs ∧
      tp = (sortDesc (bot.disease_classes.zip probs)).take 3 ∧
      (sortDesc (bot.disease_classes.zip probs)).Perm
        (bot.disease_classes.zip probs)) ∧
    tp.length ≤ 3 ∧
    tp.Pairwise (fun p q => q.2 ≤ p.2) := by
  unfold diagnose at h
  by_cases htr : bot.is_trained = false
  · rw [if_pos htr] at h
    exact absurd h (by simp)
  · rw [if_neg htr] at h
    by_cases hv : (validate_symptoms bot.all_symptoms symptoms).1.isEmpty
    · rw [if_pos hv] at h
      exact absurd h (by simp)
    · rw [if_neg hv] at h
      unfold predictPhase at h
      rcases hp : bot.predict_proba (inputVector bot.all_symptoms
          (validate_symptoms bot.all_symptoms symptoms).1) with e | probs
      · rw [hp] at h
        exact absurd h (by simp)
      · rw [hp] at h
        dsimp only at h
        rcases htp : (sortDesc (bot.disease_classes.zip probs)).take 3
            with _ | ⟨top, rest2⟩
        · rw [htp] at h
          exact absurd h (by simp)
        · rw [htp] at h
          dsimp only at h
          rw [DiagnoseResult.success.injEq] at h
          obtain ⟨h1, h2, h3, h4, h5⟩ := h
          subst h3
          subst h1
          refine ⟨rfl, fun i hi1 hi2 => inputVector_get _ _ i hi1 hi2,
            ⟨probs, hp, htp.symm, sortDesc_perm _⟩, ?_, ?_⟩
          · rw [← htp]
            exact List.length_take_le 3 _
          · rw [← htp]
            exact (sortDesc_pairwise _).sublist (List.take_sublist 3 _)

/-- C6 witness: a trained chatbot with three classes; `"fever"` and
`"rash"` validate to `["high_fever", "skin_rash"]`, the input vector is
`[1, 0, 1]`, and the predictions come out sorted descending. -/
theorem c6_witness :
    ["high_fever", "skin_rash"] =
      (validate_symptoms botA.all_symptoms ["fever", "rash"]).1 ∧
    (∀ i (h1 : i < (inputVector botA.all_symptoms
          ["high_fever", "skin_rash"]).length)
       (h2 : i < botA.all_symptoms.length),
       (inputVector botA.all_symptoms ["high_fever", "skin_rash"]).get
           ⟨i, h1⟩ =
         if botA.all_symptoms.get ⟨i, h2⟩ ∈ ["high_fever", "skin_rash"]
         then 1 else 0) ∧
    (∃ probs, botA.predict_proba (inputVector botA.all_symptoms
          ["high_fever", "skin_rash"]) = Except.ok probs ∧
      [("Measles", (7 : ℚ)), ("Flu", 3), ("Cold", 1)] =
        (sortDesc (botA.disease_classes.zip probs)).take 3 ∧
      (sortDesc (botA.disease_classes.zip probs)).Perm
        (botA.disease_classes.zip probs)) ∧
    ([("Measles", (7 : ℚ)), ("Flu", 3), ("Cold", 1)]).length ≤ 3 ∧
    ([("Measles", (7 : ℚ)), ("Flu", 3), ("Cold", 1)]).Pairwise
      (fun p q => q.2 ≤ p.2) :=
  c6_predictions botA ["fever", "rash"]
    [("Measles", 7), ("Flu", 3), ("Cold", 1)] "See a doctor promptly."
    ["high_fever", "skin_rash"] [] 7 (by decide)

/-- C7: `diagnose` is total and returns one of the four typed result
shapes; when the chatbot is untrained it returns the model-not-trained
error for every possible model (so no inference is attempted); and when
the model raises during inference (on a trained chatbot with at least one
valid symptom), the exception is caught and returned as the generic
prediction-error result. -/
theorem c7_no_crash (bot : MedicalDiagnosisChatbot) (symptoms : List String) :
    (diagnose bot symptoms = DiagnoseResult.errorNotTrained ∨
     (∃ inv, diagnose bot symptoms = DiagnoseResult.errorNoValidSymptoms inv) ∨
     (∃ e, diagnose bot symptoms = DiagnoseResult.errorPrediction e) ∨
     (∃ tp tr v inv conf,
        diagnose bot symptoms = DiagnoseResult.success tp tr v inv conf)) ∧
    (∀ (vocab : List String) (td : List (String × String))
       (cls : List String) (g : List ℕ → Except String (List ℚ)),
       diagnose ⟨false, vocab, td, cls, g⟩ symptoms =
         DiagnoseResult.errorNotTrained) ∧
    (∀ e, bot.is_trained = true →
      (validate_symptoms bot.all_symptoms symptoms).1 ≠ [] →
      bot.predict_proba (inputVector bot.all_symptoms
        (validate_symptoms bot.all_symptoms symptoms).1) = Except.error e →
      diagnose bot symptoms =
        DiagnoseResult.errorPrediction ("Prediction error: " ++ e)) := by
  refine ⟨?_, ?_, ?_⟩
  · rcases hd : diagnose bot symptoms with _ | inv | e | ⟨tp, tr, v, inv, conf⟩
    · exact Or.inl rfl
    · exact Or.inr (Or.inl ⟨inv, rfl⟩)
    · exact Or.inr (Or.inr (Or.inl ⟨e, rfl⟩))
    · exact Or.inr (Or.inr (Or.inr ⟨tp, tr, v, inv, conf, rfl⟩))
  · intro vocab td cls g
    rfl
  · intro e htr hne hp
    unfold diagnose
    rw [if_neg (by simp [htr])]
    rw [if_neg (by rwa [ne_eq, ← List.isEmpty_iff] at hne)]
    unfold predictPhase
    rw [hp]

/-- C7 witness: a trained chatbot whose model raises `"boom"` yields the
generic prediction-error result, and an untrained chatbot yields the
model-not-trained error. -/
theorem c7_witness :
    diagnose ⟨true, ["headache"], [], ["Flu"], fun _ => Except.error "boom"⟩
        ["headache"] =
      DiagnoseResult.errorPrediction "Prediction error: boom" ∧
    diagnose ⟨false, ["headache"], [], ["Flu"], fun _ => Except.ok []⟩
        ["headache"] =
      DiagnoseResult.errorNotTrained :=
  ⟨((c7_no_crash
      ⟨true, ["headache"], [], ["Flu"], fun _ => Except.error "boom"⟩
      ["headache"]).2.2 "boom" rfl (by decide) rfl).trans (by decide),
   (c7_no_crash
      ⟨false, ["headache"], [], ["Flu"], fun _ => Except.ok []⟩
      ["headache"]).2.1 ["headache"] [] ["Flu"] (fun _ => Except.ok [])⟩

/-- C8: a disease label occurring fewer than 2 times in the training
labels is removed by the load-time filter, hence absent from any class
set drawn from the filtered labels (as the trained model's class set is,
the split and fit being scikit-learn internals that only ever see the
filtered rows). -/
theorem c8_min_class_size (labels classes : List String) (d : String)
    (hcls : ∀ c ∈ classes, c ∈ filterLabels labels)
    (hcount : labels.count d < 2) :
    d ∉ filterLabels labels ∧ d ∉ classes := by
  have h1 : d ∉ filterLabels labels := by
    intro hd
    have hmem := List.mem_filter.mp hd
    rw [decide_eq_true_eq] at hmem
    exact hmem.2 hcount
  exact ⟨h1, fun hd => h1 (hcls d hd)⟩

/-- C8 witness: `"rare"` occurs once among the labels
`["flu", "flu", "rare"]`, so it is filtered out and absent from the class
set `["flu"]`. -/
theorem c8_witness :
    "rare" ∉ filterLabels ["flu", "flu", "rare"] ∧ "rare" ∉ ["flu"] :=
  c8_min_class_size ["flu", "flu", "rare"] ["flu"] "rare"
    (by decide) (by decide)

/-- C9: on every successful diagnosis the treatment is the
treatment-dictionary entry keyed by the lower-cased top-ranked disease
(the head of `top_predictions`, whose probability bounds every listed
probability), with the fixed generic advisory string as fallback when
that key is absent. -/
theorem c9_treatment (bot : MedicalDiagnosisChatbot) (symptoms : List String)
    (tp : List (String × ℚ)) (tr : String) (v inv : List String) (conf : ℚ)
    (h : diagnose bot symptoms = DiagnoseResult.success tp tr v inv conf) :
    ∃ top rest2, tp = top :: rest2 ∧
      (∀ q ∈ tp, q.2 ≤ top.2) ∧
      (∀ s, bot.treatment_dict.lookup (pyLower top.1) = some s → tr = s) ∧
      (bot.treatment_dict.lookup (pyLower top.1) = none →
        tr = genericTreatment) := by
  unfold diagnose at h
  by_cases htr : bot.is_trained = false
  · rw [if_pos htr] at h
    exact absurd h (by simp)
  · rw [if_neg htr] at h
    by_cases hv : (validate_symptoms bot.all_symptoms symptoms).1.isEmpty
    · rw [if_pos hv] at h
      exact absurd h (by simp)
    · rw [if_neg hv] at h
      unfold predictPhase at h
      rcases hp : bot.predict_proba (inputVector bot.all_symptoms
          (validate_symptoms bot.all_symptoms symptoms).1) with e | probs
      · rw [hp] at h
        exact absurd h (by simp)
      · rw [hp] at h
        dsimp only at h
        rcases htp : (sortDesc (bot.disease_classes.zip probs)).take 3
            with _ | ⟨top, rest2⟩
        · rw [htp] at h
          exact absurd h (by simp)
        · rw [htp] at h
          dsimp only at h
          rw [DiagnoseResult.success.injEq] at h
          obtain ⟨h1, h2, h3, h4, h5⟩ := h
          subst h1
          subst h2
          refine ⟨top, rest2, rfl, ?_, ?_, ?_⟩
          · intro q hq
            have hpw : (top :: rest2).Pairwise (fun p q => q.2 ≤ p.2) := by
              rw [← htp]
              exact (sortDesc_pairwise _).sublist (List.take_sublist 3 _)
            rcases List.mem_cons.mp hq with hq1 | hq1
            · exact hq1 ▸ le_refl _
            · exact (List.pairwise_cons.mp hpw).1 q hq1
          · intro s hs
            unfold dictGet
            rw [hs]
          · intro hs
            unfold dictGet
            rw [hs]

/-- C9 witness: the top prediction is `("Measles", 7)` and the treatment
dictionary of `botA` maps `"measles"` to `"See a doctor promptly."`. -/
theorem c9_witness :
    ∃ top rest2,
      [("Measles", (7 : ℚ)), ("Flu", 3), ("Cold", 1)] = top :: rest2 ∧
      (∀ q ∈ [("Measles", (7 : ℚ)), ("Flu", 3), ("Cold", 1)], q.2 ≤ top.2) ∧
      (∀ s, botA.treatment_dict.lookup (pyLower top.1) = some s →
        "See a doctor promptly." = s) ∧
      (botA.treatment_dict.lookup (pyLower top.1) = none →
        "See a doctor promptly." = genericTreatment) :=
  c9_treatment botA ["fever", "rash"]
    [("Measles", 7), ("Flu", 3), ("Cold", 1)] "See a doctor promptly."
    ["high_fever", "skin_rash"] [] 7 (by decide)

/-- Projection of a diagnosis result onto its prediction content: the
ranked predictions, treatment and confidence of a success, `none` for the
error shapes. -/
def predictionView : DiagnoseResult → Option (List (String × ℚ) × String × ℚ)
  | DiagnoseResult.success tp tr _ _ conf => some (tp, tr, conf)
  | _ => none

/-- C10: the input vector, and hence the entire prediction content of the
result (ranked predictions, treatment, confidence), is unchanged when the
validated symptom list is replaced by its deduplication — the vector is
built by a membership test, in vocabulary order. -/
theorem c10_dedup_invariant (bot : MedicalDiagnosisChatbot)
    (valid inv1 inv2 : List String) :
    inputVector bot.all_symptoms valid =
      inputVector bot.all_symptoms valid.dedup ∧
    predictionView (predictPhase bot valid inv1) =
      predictionView (predictPhase bot valid.dedup inv2) := by
  have hvec : inputVector bot.all_symptoms valid =
      inputVector bot.all_symptoms valid.dedup := by
    unfold inputVector
    simp only [List.mem_dedup]
  refine ⟨hvec, ?_⟩
  unfold predictPhase
  rw [hvec]
  rcases bot.predict_proba (inputVector bot.all_symptoms valid.dedup)
      with e | probs
  · rfl
  · dsimp only
    rcases (sortDesc (bot.disease_classes.zip probs)).take 3
        with _ | ⟨top, rest2⟩
    · rfl
    · rfl

end MedBot
